import Mathlib

/-!
Shallow embedding of the zerolog-to-sentry bridge (writer.go of
github.com/egordigitax/zerolog-sentry) together with proofs about the
claims of its specification.

Conventions of the embedding:
- Go machinery that can panic (nil-pointer dereference, out-of-range
  indexing or slicing) is modelled with Option: a result of none means
  the Go code panics on that input.
- The external sentry client is modelled by the trace of calls the
  writer makes on it (ClientCall below): CaptureEvent and Flush.
- Raw JSON log records are modelled by the list of top-level key/value
  pairs in document order plus a validity flag (whether
  jsonparser.ObjectEach completes without a structural error) and the
  byte length of the raw data.
- The captured call stack used by sentry.NewStacktrace, and the wall
  clock used for the event timestamp, are passed as explicit
  parameters.
-/

namespace ZlogSentry

/-- zerolog.Level: Trace = -1, Debug = 0, Info, Warn, Error, Fatal, Panic = 5,
NoLevel = 6, Disabled = 7. -/
inductive ZLevel where
  | trace
  | debug
  | info
  | warn
  | error
  | fatal
  | panic
  | noLevel
  | disabled
deriving DecidableEq, Repr

/-- Level(i) for an integer accepted by the numeric branch of
zerolog.ParseLevel (the range -1 .. 7). -/
def levelOfInt (i : Int) : ZLevel :=
  if i = -1 then .trace
  else if i = 0 then .debug
  else if i = 1 then .info
  else if i = 2 then .warn
  else if i = 3 then .error
  else if i = 4 then .fatal
  else if i = 5 then .panic
  else if i = 6 then .noLevel
  else .disabled

/-- ASCII lower-casing of one character, the effect of strings.EqualFold on
the ASCII-only level names. -/
def asciiLower (c : Char) : Char :=
  if 'A' ≤ c ∧ c ≤ 'Z' then Char.ofNat (c.toNat + 32) else c

/-- characters of a string folded to ASCII lower case. -/
def lowerChars (s : String) : List Char :=
  s.data.map asciiLower

/-- value of one decimal digit character. -/
def digitVal (c : Char) : Option Nat :=
  if '0' ≤ c ∧ c ≤ '9' then some (c.toNat - '0'.toNat) else none

/-- decimal digits accumulated left to right; none on any non-digit. -/
def natOfDigits : List Char → Nat → Option Nat
  | [], acc => some acc
  | c :: cs, acc =>
    match digitVal c with
    | some d => natOfDigits cs (acc * 10 + d)
    | none => none

/-- strconv.Atoi: optional sign followed by at least one decimal digit;
none models a non-nil error. -/
def atoi (s : String) : Option Int :=
  match s.data with
  | [] => none
  | '+' :: cs => if cs = [] then none else (natOfDigits cs 0).map Int.ofNat
  | '-' :: cs => if cs = [] then none else (natOfDigits cs 0).map (fun n => -(n : Int))
  | cs => (natOfDigits cs 0).map Int.ofNat

/-- zerolog.ParseLevel: case-insensitive match of the marshalled level names,
then the numeric fallback via strconv.Atoi with bound check -1 .. 7.
Returns none where the Go function returns a non-nil error. -/
def parseLevel (s : String) : Option ZLevel :=
  let t := lowerChars s
  if t = "trace".data then some .trace
  else if t = "debug".data then some .debug
  else if t = "info".data then some .info
  else if t = "warn".data then some .warn
  else if t = "error".data then some .error
  else if t = "fatal".data then some .fatal
  else if t = "panic".data then some .panic
  else if t = "disabled".data then some .disabled
  else if t = [] then some .noLevel
  else
    match atoi s with
    | some i => if -1 ≤ i ∧ i ≤ 7 then some (levelOfInt i) else none
    | none => none

/-- the levelsMapping map of writer.go: sentry.Level is a string type, so the
external severity is a String; none models absence of the key from the Go
map (Trace, NoLevel and Disabled have no entry). -/
def levelsMapping : ZLevel → Option String
  | .debug => some "debug"
  | .info => some "info"
  | .warn => some "warning"
  | .error => some "error"
  | .fatal => some "fatal"
  | .panic => some "fatal"
  | _ => none

/-- indexing a missing key in a Go map yields the zero value, the empty
string for sentry.Level; this models the expression levelsMapping[lvl]. -/
def levelsMappingGet (l : ZLevel) : String :=
  (levelsMapping l).getD ""

/-- a top-level JSON value as seen by jsonparser: either a string (value
bytes are the unquoted content) or any other value kept as its raw text. -/
inductive JValue where
  | str (s : String)
  | other (raw : String)
deriving DecidableEq, Repr

/-- raw text of a value, as produced by bytesToStrUnsafe on the value bytes
handed out by jsonparser (it does not check the value type). -/
def jvalRaw : JValue → String
  | .str s => s
  | .other r => r

/-- a raw log record: the top-level key/value pairs readable from the data in
document order, whether jsonparser.ObjectEach completes without a structural
error, and len(data). -/
structure LogData where
  fields : List (String × JValue)
  valid : Bool
  len : Nat
deriving DecidableEq, Repr

/-- jsonparser.GetUnsafeString(data, key): raw text of the first top-level
occurrence of the key, with no check of the value type; none models the
key-not-found error. -/
def getUnsafeString (data : LogData) (key : String) : Option String :=
  (data.fields.find? (fun kv => kv.1 = key)).map (fun kv => jvalRaw kv.2)

/-- jsonparser.GetString(data, key): value of the first top-level occurrence
of the key, which must be a JSON string; none models both key-not-found and
wrong-value-type errors. -/
def getString (data : LogData) (key : String) : Option String :=
  match data.fields.find? (fun kv => kv.1 = key) with
  | some (_, .str s) => some s
  | _ => none

/-- parseLogLevel of writer.go (the receiver is unused in the source): a
missing level field yields Disabled with a nil error; otherwise the result of
zerolog.ParseLevel, whose error is modelled by none. -/
def parseLogLevel (data : LogData) : Option ZLevel :=
  match getUnsafeString data "level" with
  | none => some .disabled
  | some s => parseLevel s

/-- one sentry stack frame; only the fields the pruning logic reads are
modelled, plus the function name to tell frames apart. -/
structure Frame where
  module : String
  function : String
deriving DecidableEq, Repr

/-- the module constant of newStacktrace in writer.go (a hard-coded literal,
kept verbatim from the source). -/
def zlsModule : String := "github.com/archdx/zerolog-sentry"

/-- the loggerModule constant of newStacktrace in writer.go. -/
def loggerModule : String := "github.com/rs/zerolog"

/-- module path of this repository, from its go.mod file. -/
def ownModulePath : String := "github.com/egordigitax/zerolog-sentry"

/-- Go indexing frames[i] with an int index: none models the index-out-of-
range panic. The frame list is in the sentry order, root first, so the last
element is the innermost (most recent) call. -/
def getFrame (frames : List Frame) (i : Int) : Option Frame :=
  if i < 0 then none else frames.get? i.toNat

/-- the first loop of newStacktrace: starting from threshold t it keeps
decrementing while t is positive and frames[t].Module equals the hard-coded
module literal. Fuel makes the recursion structural; none models a panic or
fuel exhaustion (shown unreachable below). -/
def dropOwnFrames (frames : List Frame) : Nat → Int → Option Int
  | 0, _ => none
  | fuel + 1, t =>
    if 0 < t then
      match getFrame frames t with
      | none => none
      | some f =>
        if f.module = zlsModule then dropOwnFrames frames fuel (t - 1) else some t
    else some t

/-- the inner loop of the second pass of newStacktrace: scanning j downward
from i-1 while j is nonnegative, looking for the first frame that is not a
logger-module frame. Returns some (some j) when found (threshold becomes j
and the labelled outer loop is left), some none when the loop runs out
(plain break, threshold unchanged), none on a panic. -/
def findLoggerInner (frames : List Frame) : Nat → Int → Option (Option Int)
  | 0, _ => none
  | fuel + 1, j =>
    if 0 ≤ j then
      match getFrame frames j with
      | none => none
      | some f =>
        if f.module = loggerModule then findLoggerInner frames fuel (j - 1)
        else some (some j)
    else some none

/-- the labelled outer loop of the second pass of newStacktrace: i scans
downward from the current threshold while positive; at the first logger-
module frame the inner loop decides the new threshold. -/
def scanOuter (frames : List Frame) : Nat → Int → Int → Option Int
  | 0, _, _ => none
  | fuel + 1, i, t =>
    if 0 < i then
      match getFrame frames i with
      | none => none
      | some f =>
        if f.module = loggerModule then
          match findLoggerInner frames (frames.length + 1) (i - 1) with
          | none => none
          | some (some j) => some j
          | some none => some t
        else scanOuter frames fuel (i - 1) t
    else some t

/-- newStacktrace of writer.go, on the captured frame list (sentry order,
root first): the two trimming passes followed by the slice
frames[:threshold+1], whose bound check models the Go slicing panic. -/
def newStacktrace (frames : List Frame) : Option (List Frame) :=
  let t0 : Int := (frames.length : Int) - 1
  match dropOwnFrames frames (frames.length + 1) t0 with
  | none => none
  | some t1 =>
    match scanOuter frames (frames.length + 1) t1 t1 with
    | none => none
    | some t2 =>
      if 0 ≤ t2 + 1 ∧ t2 + 1 ≤ (frames.length : Int) then
        some (frames.take (t2 + 1).toNat)
      else none

/-- one sentry.Exception as built by parseLogEvent: Value is the error field
text, Type is filled in by the post-pass loop, Stacktrace is the result of
newStacktrace on the stack captured at that point (none models a panic in
newStacktrace). -/
structure SException where
  value : String
  type : String
  stacktrace : Option (List Frame)
deriving DecidableEq, Repr

/-- the parts of a sentry.Event that parseLogEvent and Write populate.
Extra is the Go map modelled as an association list with last-write-wins
updates; level is the string sentry.Level, zero value the empty string. -/
structure Event where
  level : String
  message : String
  fingerprint : List String
  exceptions : List SException
  userId : String
  extra : List (String × String)
  logger : String
  timestamp : Nat
deriving DecidableEq, Repr

/-- Go map assignment m[k] = v on the association-list model. -/
def mapInsert (m : List (String × String)) (k v : String) : List (String × String) :=
  if m.any (fun kv => kv.1 = k) then
    m.map (fun kv => if kv.1 = k then (k, v) else kv)
  else m ++ [(k, v)]

/-- mutable state of the ObjectEach callback in parseLogEvent: the event
fields touched during the pass, the local message variable and the local
exceptions slice. -/
structure ParseState where
  message : String
  fingerprint : List String
  exceptions : List SException
  userId : String
  extra : List (String × String)
deriving DecidableEq, Repr

/-- one iteration of the ObjectEach callback in parseLogEvent, keyed by the
zerolog field names message, error, level, time and the reserved user_id
key. The captured stack for newStacktrace is the stack parameter. -/
def processField (stack : List Frame) (st : ParseState) (kv : String × JValue) :
    ParseState :=
  let val := jvalRaw kv.2
  if kv.1 = "message" then
    { st with message := val, fingerprint := st.fingerprint ++ [val] }
  else if kv.1 = "error" then
    { st with
        exceptions := st.exceptions ++
          [{ value := val, type := "", stacktrace := newStacktrace stack }],
        fingerprint := st.fingerprint ++ [val] }
  else if kv.1 = "level" ∨ kv.1 = "time" then st
  else if kv.1 = "user_id" then
    { st with
        userId := if st.userId = "" then val else st.userId,
        extra := mapInsert st.extra "user_id" val }
  else { st with extra := mapInsert st.extra kv.1 val }

/-- the zero-initialized local state at the start of the callback pass. -/
def initState : ParseState :=
  { message := "", fingerprint := [], exceptions := [], userId := "", extra := [] }

/-- the state after the full ObjectEach pass of parseLogEvent. -/
def parsedState (stack : List Frame) (data : LogData) : ParseState :=
  data.fields.foldl (processField stack) initState

/-- the fingerprint override step of parseLogEvent: a non-empty string value
of a top-level fingerprint field replaces the accumulator wholesale. -/
def finalFingerprint (data : LogData) (acc : List String) : List String :=
  match getString data "fingerprint" with
  | some f => if f ≠ "" then [f] else acc
  | none => acc

/-- parseLogEvent of writer.go: none where ObjectEach reports a malformed
structure (the Go function returns nil, false there); otherwise the pass
over the fields, the fingerprint override from a non-empty string
fingerprint field, and the post-pass loop that sets Message and stamps
every collected exception with the final message as its Type. -/
def parseLogEvent (stack : List Frame) (ts : Nat) (data : LogData) :
    Option Event :=
  if data.valid then
    some
      { level := ""
        message := (parsedState stack data).message
        fingerprint := finalFingerprint data (parsedState stack data).fingerprint
        exceptions := (parsedState stack data).exceptions.map
          (fun e => { e with type := (parsedState stack data).message })
        userId := (parsedState stack data).userId
        extra := (parsedState stack data).extra
        logger := "zerolog"
        timestamp := ts }
  else none

/-- the Writer structure of writer.go: the enabled level set and the flush
timeout; the sentry hub is represented by the call trace Write produces. -/
structure Writer where
  levels : List ZLevel
  flushTimeout : Nat
deriving DecidableEq, Repr

/-- one call made on the sentry hub. -/
inductive ClientCall where
  | capture (e : Event)
  | flush (timeout : Nat)
deriving DecidableEq, Repr

/-- Write of writer.go. Returns none where the Go method panics: when the
level is parseable and enabled but parseLogEvent returns nil, the statement
event.Level = levelsMapping[lvl] dereferences a nil pointer, because it runs
before the ok flag is checked. Otherwise returns n = len(data) (the Go error
is always nil) and the trace of hub calls. -/
def Write (w : Writer) (stack : List Frame) (ts : Nat) (data : LogData) :
    Option (Nat × List ClientCall) :=
  match parseLogLevel data with
  | none => some (data.len, [])
  | some lvl =>
    if lvl ∈ w.levels then
      match parseLogEvent stack ts data with
      | none => none
      | some ev =>
        let ev := { ev with level := levelsMappingGet lvl }
        some (data.len,
          [ClientCall.capture ev] ++
            (if ev.level = "fatal" then [ClientCall.flush w.flushTimeout] else []))
    else some (data.len, [])

/-- WriteLevel of writer.go: same as Write but the level is given by the
caller instead of being parsed from the record; the same unguarded
event.Level assignment makes it panic (none) on malformed records with an
enabled level. -/
def WriteLevel (w : Writer) (level : ZLevel) (stack : List Frame) (ts : Nat)
    (data : LogData) : Option (Nat × List ClientCall) :=
  if level ∈ w.levels then
    match parseLogEvent stack ts data with
    | none => none
    | some ev =>
      let ev := { ev with level := levelsMappingGet level }
      some (data.len,
        [ClientCall.capture ev] ++
          (if ev.level = "fatal" then [ClientCall.flush w.flushTimeout] else []))
  else some (data.len, [])

/-- Close of writer.go: one flush with the configured timeout; the returned
Go error is always nil, so only the call trace is modelled. -/
def Close (w : Writer) : List ClientCall :=
  [ClientCall.flush w.flushTimeout]

/-- whether a hub call is a flush. -/
def isFlush : ClientCall → Bool
  | .flush _ => true
  | .capture _ => false

/-- whether a hub call is a capture. -/
def isCapture : ClientCall → Bool
  | .capture _ => true
  | .flush _ => false

/-- contribution of one field to the fingerprint accumulator: the value text
for a message or error key, nothing otherwise. -/
def fpContrib (kv : String × JValue) : Option String :=
  if kv.1 = "message" ∨ kv.1 = "error" then some (jvalRaw kv.2) else none

/-- contribution of one field to the exceptions slice: the value text for an
error key. -/
def errContrib (kv : String × JValue) : Option String :=
  if kv.1 = "error" then some (jvalRaw kv.2) else none

/-- effect of one field on the local message variable: the last message
value wins. -/
def msgStep (m : String) (kv : String × JValue) : String :=
  if kv.1 = "message" then jvalRaw kv.2 else m

/-- the exception record built for one error field before the post-pass
stamps its Type. -/
def mkException (stack : List Frame) (v : String) : SException :=
  { value := v, type := "", stacktrace := newStacktrace stack }

/-- the fingerprint override the final GetString step applies: a non-empty
string value of a top-level fingerprint field. -/
def fingerprintOverride (data : LogData) : Option String :=
  match getString data "fingerprint" with
  | some f => if f ≠ "" then some f else none
  | none => none

/-- writer with the default enabled levels (error, fatal, panic) and the
default 3-second flush timeout of newDefaultConfig. -/
def wDefault : Writer := { levels := [.error, .fatal, .panic], flushTimeout := 3 }

/-- writer whose enabled set contains the Disabled pseudo-level, reachable
through WithLevels(zerolog.Disabled). -/
def wDisabledEnabled : Writer := { levels := [.disabled], flushTimeout := 3 }

/-- writer whose enabled set contains the trace level, reachable through
WithLevels(zerolog.TraceLevel). -/
def wTrace : Writer := { levels := [.trace], flushTimeout := 3 }

/-- a truncated record: the level field is readable and parses to error, but
the object structure is malformed, so ObjectEach fails. -/
def dTrunc : LogData := { fields := [("level", .str "error")], valid := false, len := 25 }

/-- a well-formed record with no level field at all. -/
def dNoLevel : LogData := { fields := [("message", .str "hi")], valid := true, len := 17 }

/-- a well-formed record whose level field does not parse. -/
def dBadLevel : LogData := { fields := [("level", .str "verbose")], valid := true, len := 21 }

/-- a well-formed record with level info, outside the default enabled set. -/
def dInfo : LogData := { fields := [("level", .str "info")], valid := true, len := 30 }

/-- a well-formed error record whose message field comes after its two error
fields in document order. -/
def dMsgLast : LogData :=
  { fields := [("level", .str "error"), ("error", .str "E1"), ("error", .str "E2"),
               ("message", .str "M")],
    valid := true, len := 60 }

/-- the event parseLogEvent builds for dMsgLast with an empty captured stack
and timestamp 0. -/
def evMsgLast : Event :=
  { level := "", message := "M", fingerprint := ["E1", "E2", "M"],
    exceptions := [{ value := "E1", type := "M", stacktrace := some [] },
                   { value := "E2", type := "M", stacktrace := some [] }],
    userId := "", extra := [], logger := "zerolog", timestamp := 0 }

/-- a well-formed fatal record. -/
def dFatal : LogData :=
  { fields := [("level", .str "fatal"), ("message", .str "boom")], valid := true, len := 40 }

/-- the event Write submits for dFatal under wDefault, empty stack,
timestamp 7. -/
def evFatal : Event :=
  { level := "fatal", message := "boom", fingerprint := ["boom"],
    exceptions := [], userId := "", extra := [], logger := "zerolog", timestamp := 7 }

/-- a well-formed trace record. -/
def dTrace : LogData :=
  { fields := [("level", .str "trace"), ("message", .str "t")], valid := true, len := 30 }

/-- the event Write submits for dTrace under wTrace: its severity is the
zero value of sentry.Level because levelsMapping has no trace entry. -/
def evTrace : Event :=
  { level := "", message := "t", fingerprint := ["t"],
    exceptions := [], userId := "", extra := [], logger := "zerolog", timestamp := 0 }

/-- a well-formed record carrying an explicit non-empty fingerprint field. -/
def dFp : LogData :=
  { fields := [("level", .str "error"), ("message", .str "M"), ("fingerprint", .str "F")],
    valid := true, len := 50 }

/-- the event parseLogEvent builds for dFp: the fingerprint field overrides
the accumulator and also lands in Extra through the default branch. -/
def evFp : Event :=
  { level := "", message := "M", fingerprint := ["F"],
    exceptions := [], userId := "", extra := [("fingerprint", "F")],
    logger := "zerolog", timestamp := 0 }

/-- a well-formed error record whose error field precedes its message
field. -/
def dErrFirst : LogData :=
  { fields := [("level", .str "error"), ("error", .str "E"), ("message", .str "M")],
    valid := true, len := 45 }

/-- the event parseLogEvent builds for dErrFirst with an empty captured
stack and timestamp 0. -/
def evErrFirst : Event :=
  { level := "", message := "M", fingerprint := ["E", "M"],
    exceptions := [{ value := "E", type := "M", stacktrace := some [] }],
    userId := "", extra := [], logger := "zerolog", timestamp := 0 }

/-- the synthetic captured stack of the stack-trimming law, in sentry order
(root first): main, then the application call site, then two logger frames,
then two bridge frames of this library as the innermost calls. -/
def framesChain : List Frame :=
  [{ module := "main", function := "main" },
   { module := "app/pkg", function := "caller" },
   { module := loggerModule, function := "log1" },
   { module := loggerModule, function := "log2" },
   { module := ownModulePath, function := "bridge1" },
   { module := ownModulePath, function := "bridge2" }]

/-- a two-frame stack whose root frame belongs to this repository and whose
innermost frame carries the hard-coded archdx module literal. -/
def framesOwn : List Frame :=
  [{ module := ownModulePath, function := "app" },
   { module := zlsModule, function := "bridge" }]

/-- one callback step appends exactly the fingerprint contribution of the
field. -/
theorem processField_fingerprint (stack : List Frame) (st : ParseState)
    (kv : String × JValue) :
    (processField stack st kv).fingerprint = st.fingerprint ++ (fpContrib kv).toList := by
  simp only [processField, fpContrib]
  split_ifs <;> simp_all

/-- one callback step appends exactly the exception contribution of the
field. -/
theorem processField_exceptions (stack : List Frame) (st : ParseState)
    (kv : String × JValue) :
    (processField stack st kv).exceptions =
      st.exceptions ++ (errContrib kv).toList.map (mkException stack) := by
  simp only [processField, errContrib]
  split_ifs <;> simp_all [mkException]

/-- one callback step updates the message variable by msgStep. -/
theorem processField_message (stack : List Frame) (st : ParseState)
    (kv : String × JValue) :
    (processField stack st kv).message = msgStep st.message kv := by
  simp only [processField, msgStep]
  split_ifs <;> simp_all

/-- the full callback pass accumulates the fingerprint contributions of the
fields in document order. -/
theorem foldl_fingerprint (stack : List Frame) (fields : List (String × JValue)) :
    ∀ st : ParseState,
      (fields.foldl (processField stack) st).fingerprint =
        st.fingerprint ++ fields.filterMap fpContrib := by
  induction fields with
  | nil => intro st; simp
  | cons kv fs ih =>
    intro st
    rw [List.foldl_cons, ih, processField_fingerprint, List.filterMap_cons]
    cases h : fpContrib kv <;> simp [h]

/-- the full callback pass collects one exception per error field, in
document order. -/
theorem foldl_exceptions (stack : List Frame) (fields : List (String × JValue)) :
    ∀ st : ParseState,
      (fields.foldl (processField stack) st).exceptions =
        st.exceptions ++ (fields.filterMap errContrib).map (mkException stack) := by
  induction fields with
  | nil => intro st; simp
  | cons kv fs ih =>
    intro st
    rw [List.foldl_cons, ih, processField_exceptions, List.filterMap_cons]
    cases h : errContrib kv <;> simp [h]

/-- the full callback pass leaves the last message value in the message
variable. -/
theorem foldl_message (stack : List Frame) (fields : List (String × JValue)) :
    ∀ st : ParseState,
      (fields.foldl (processField stack) st).message =
        fields.foldl msgStep st.message := by
  induction fields with
  | nil => intro st; simp
  | cons kv fs ih =>
    intro st
    rw [List.foldl_cons, ih, processField_message, List.foldl_cons]

/-- unfolding of the first trimming loop when the threshold is not
positive. -/
theorem dropOwnFrames_eq_nonpos (frames : List Frame) (fuel : Nat) (t : Int)
    (hpos : ¬ 0 < t) : dropOwnFrames frames (fuel + 1) t = some t := by
  simp only [dropOwnFrames]
  rw [if_neg hpos]

/-- unfolding of the first trimming loop on a failed frame access. -/
theorem dropOwnFrames_eq_none (frames : List Frame) (fuel : Nat) (t : Int)
    (hpos : 0 < t) (hget : getFrame frames t = none) :
    dropOwnFrames frames (fuel + 1) t = none := by
  simp only [dropOwnFrames]
  rw [if_pos hpos, hget]

/-- unfolding of the first trimming loop on a successful frame access. -/
theorem dropOwnFrames_eq_some (frames : List Frame) (fuel : Nat) (t : Int)
    (f : Frame) (hpos : 0 < t) (hget : getFrame frames t = some f) :
    dropOwnFrames frames (fuel + 1) t =
      if f.module = zlsModule then dropOwnFrames frames fuel (t - 1) else some t := by
  simp only [dropOwnFrames]
  rw [if_pos hpos, hget]

/-- unfolding of the inner loop of the second pass when the index is
negative. -/
theorem findLoggerInner_eq_neg (frames : List Frame) (fuel : Nat) (j : Int)
    (hneg : ¬ 0 ≤ j) : findLoggerInner frames (fuel + 1) j = some none := by
  simp only [findLoggerInner]
  rw [if_neg hneg]

/-- unfolding of the inner loop of the second pass on a successful frame
access. -/
theorem findLoggerInner_eq_some (frames : List Frame) (fuel : Nat) (j : Int)
    (f : Frame) (hneg : 0 ≤ j) (hget : getFrame frames j = some f) :
    findLoggerInner frames (fuel + 1) j =
      if f.module = loggerModule then findLoggerInner frames fuel (j - 1)
      else some (some j) := by
  simp only [findLoggerInner]
  rw [if_pos hneg, hget]

/-- unfolding of the outer loop of the second pass when the index is not
positive. -/
theorem scanOuter_eq_nonpos (frames : List Frame) (fuel : Nat) (i t : Int)
    (hpos : ¬ 0 < i) : scanOuter frames (fuel + 1) i t = some t := by
  simp only [scanOuter]
  rw [if_neg hpos]

/-- unfolding of the outer loop of the second pass on a successful frame
access. -/
theorem scanOuter_eq_some (frames : List Frame) (fuel : Nat) (i t : Int)
    (f : Frame) (hpos : 0 < i) (hget : getFrame frames i = some f) :
    scanOuter frames (fuel + 1) i t =
      if f.module = loggerModule then
        match findLoggerInner frames (frames.length + 1) (i - 1) with
        | none => none
        | some (some j) => some j
        | some none => some t
      else scanOuter frames fuel (i - 1) t := by
  simp only [scanOuter]
  rw [if_pos hpos, hget]

/-- a frame access at a nonnegative index below the length succeeds. -/
theorem getFrame_some (frames : List Frame) (t : Int) (h0 : 0 ≤ t)
    (hlt : t.toNat < frames.length) :
    getFrame frames t = some (frames.get ⟨t.toNat, hlt⟩) := by
  unfold getFrame
  rw [if_neg (by omega), List.get?_eq_get hlt]

/-- the first trimming loop always terminates with a threshold inside
-1 .. t, performing no out-of-range access, provided the fuel exceeds the
starting threshold. -/
theorem dropOwnFrames_some (frames : List Frame) :
    ∀ (fuel : Nat) (t : Int), -1 ≤ t → t < (frames.length : Int) → t.toNat < fuel →
      ∃ t', dropOwnFrames frames fuel t = some t' ∧ -1 ≤ t' ∧ t' ≤ t := by
  intro fuel
  induction fuel with
  | zero => intro t _ _ hf; exact absurd hf (by omega)
  | succ fuel ih =>
    intro t ht1 ht2 hf
    by_cases hpos : 0 < t
    · have hlt : t.toNat < frames.length := by omega
      have hget := getFrame_some frames t (by omega) hlt
      rw [dropOwnFrames_eq_some frames fuel t _ hpos hget]
      by_cases hmod : (frames.get ⟨t.toNat, hlt⟩).module = zlsModule
      · rw [if_pos hmod]
        obtain ⟨t', heq, h1, h2⟩ := ih (t - 1) (by omega) (by omega) (by omega)
        exact ⟨t', heq, h1, by omega⟩
      · rw [if_neg hmod]
        exact ⟨t, rfl, by omega, le_refl t⟩
    · rw [dropOwnFrames_eq_nonpos frames fuel t hpos]
      exact ⟨t, rfl, ht1, le_refl t⟩

/-- the inner loop of the second pass always terminates, and when it finds a
non-logger frame the reported index lies in 0 .. j. -/
theorem findLoggerInner_some (frames : List Frame) :
    ∀ (fuel : Nat) (j : Int), j < (frames.length : Int) → (j + 1).toNat < fuel →
      ∃ r, findLoggerInner frames fuel j = some r ∧
        ∀ j0 : Int, r = some j0 → 0 ≤ j0 ∧ j0 ≤ j := by
  intro fuel
  induction fuel with
  | zero => intro j _ hf; exact absurd hf (by omega)
  | succ fuel ih =>
    intro j hj hf
    by_cases hneg : 0 ≤ j
    · have hlt : j.toNat < frames.length := by omega
      have hget := getFrame_some frames j hneg hlt
      rw [findLoggerInner_eq_some frames fuel j _ hneg hget]
      by_cases hmod : (frames.get ⟨j.toNat, hlt⟩).module = loggerModule
      · rw [if_pos hmod]
        obtain ⟨r, heq, hr⟩ := ih (j - 1) (by omega) (by omega)
        refine ⟨r, heq, fun j0 h0 => ?_⟩
        have := hr j0 h0
        omega
      · rw [if_neg hmod]
        refine ⟨some j, rfl, fun j0 h0 => ?_⟩
        cases h0
        omega
    · rw [findLoggerInner_eq_neg frames fuel j hneg]
      exact ⟨none, rfl, by simp⟩

/-- the outer loop of the second pass always terminates with a threshold in
-1 .. length-1, performing no out-of-range access. -/
theorem scanOuter_some (frames : List Frame) :
    ∀ (fuel : Nat) (i t : Int), i < (frames.length : Int) → -1 ≤ t →
      t < (frames.length : Int) → i.toNat < fuel →
      ∃ t', scanOuter frames fuel i t = some t' ∧ -1 ≤ t' ∧
        t' < (frames.length : Int) := by
  intro fuel
  induction fuel with
  | zero => intro i t _ _ _ hf; exact absurd hf (by omega)
  | succ fuel ih =>
    intro i t hi ht1 ht2 hf
    by_cases hpos : 0 < i
    · have hlt : i.toNat < frames.length := by omega
      have hget := getFrame_some frames i (by omega) hlt
      rw [scanOuter_eq_some frames fuel i t _ hpos hget]
      by_cases hmod : (frames.get ⟨i.toNat, hlt⟩).module = loggerModule
      · rw [if_pos hmod]
        obtain ⟨r, heq, hr⟩ :=
          findLoggerInner_some frames (frames.length + 1) (i - 1) (by omega) (by omega)
        rw [heq]
        cases r with
        | none => exact ⟨t, rfl, ht1, ht2⟩
        | some j =>
          have hj := hr j rfl
          exact ⟨j, rfl, by omega, by omega⟩
      · rw [if_neg hmod]
        exact ih (i - 1) t (by omega) ht1 ht2 (by omega)
    · rw [scanOuter_eq_nonpos frames fuel i t hpos]
      exact ⟨t, rfl, ht1, ht2⟩

/-- every frame index the first trimming loop discards (strictly above the
returned threshold, at or below the starting one) holds a frame whose
Module is the hard-coded archdx literal. -/
theorem dropOwnFrames_dropped_module (frames : List Frame) :
    ∀ (fuel : Nat) (t t' : Int), dropOwnFrames frames fuel t = some t' →
      ∀ i : Int, t' < i → i ≤ t →
        (getFrame frames i).map Frame.module = some zlsModule := by
  intro fuel
  induction fuel with
  | zero => intro t t' h; exact absurd h (by simp [dropOwnFrames])
  | succ fuel ih =>
    intro t t' h i hi1 hi2
    by_cases hpos : 0 < t
    · cases hget : getFrame frames t with
      | none =>
        rw [dropOwnFrames_eq_none frames fuel t hpos hget] at h
        exact absurd h (by simp)
      | some f =>
        rw [dropOwnFrames_eq_some frames fuel t f hpos hget] at h
        by_cases hmod : f.module = zlsModule
        · rw [if_pos hmod] at h
          by_cases hit : i ≤ t - 1
          · exact ih (t - 1) t' h i hi1 hit
          · have hi : i = t := by omega
            rw [hi, hget]
            simp [hmod]
        · rw [if_neg hmod] at h
          cases h
          exact absurd hi1 (by omega)
    · rw [dropOwnFrames_eq_nonpos frames fuel t hpos] at h
      cases h
      exact absurd hi1 (by omega)

/-- C1: the claim says Write always returns n = len(data) with a nil error
and never fails to complete, even on malformed input whose level field is
parseable and enabled. The code violates this: for the truncated record
dTrunc the level parses to error and is enabled, parseLogEvent returns nil,
and the unguarded assignment event.Level = levelsMapping[lvl] dereferences
the nil pointer, so Write panics (modelled by none) instead of returning
(len(data), nil). The spec is clearly the intent (the ok flag exists to
guard exactly this), so this is a bug in the code. -/
theorem c1_write_panics_on_malformed_enabled_record :
    parseLogLevel dTrunc = some ZLevel.error ∧ ZLevel.error ∈ wDefault.levels ∧
      dTrunc.valid = false ∧ Write wDefault [] 0 dTrunc = none := by decide

/-- C2 counterexample: the claim as stated fails for a record with a missing
severity field when the configured enabled set contains the Disabled
pseudo-level (reachable through WithLevels(zerolog.Disabled)): parseLogLevel
maps the missing field to Disabled, the membership test passes, and Write
submits one event instead of zero. -/
theorem c2_counterexample :
    getUnsafeString dNoLevel "level" = none ∧
      (Write wDisabledEnabled [] 0 dNoLevel).map
        (fun r => (r.2.filter isCapture).length) = some 1 := by decide

/-- C2 amended: a record whose severity field is missing leads to zero
submissions and success with n = len(input) provided the Disabled
pseudo-level is not in the configured enabled set; a record with an
unparseable severity, or a parseable severity outside the enabled set,
always leads to zero submissions and success with n = len(input). -/
theorem c2_filtered_records_produce_no_submissions
    (w : Writer) (stack : List Frame) (ts : Nat) (data : LogData) :
    (getUnsafeString data "level" = none → ZLevel.disabled ∉ w.levels →
        Write w stack ts data = some (data.len, [])) ∧
    (∀ s, getUnsafeString data "level" = some s → parseLevel s = none →
        Write w stack ts data = some (data.len, [])) ∧
    (∀ lvl, parseLogLevel data = some lvl → lvl ∉ w.levels →
        Write w stack ts data = some (data.len, [])) := by
  refine ⟨fun h1 h2 => ?_, fun s h1 h2 => ?_, fun lvl h1 h2 => ?_⟩
  · simp only [Write, parseLogLevel, h1]
    rw [if_neg h2]
  · simp only [Write, parseLogLevel, h1, h2]
  · simp only [Write, h1]
    rw [if_neg h2]

/-- C2 witness: the amended theorem applied to a record without a level
field, a record with the unparseable level verbose, and an info record
outside the default enabled set. -/
theorem c2_witness :
    Write wDefault [] 0 dNoLevel = some (17, []) ∧
      Write wDefault [] 0 dBadLevel = some (21, []) ∧
      Write wDefault [] 0 dInfo = some (30, []) :=
  ⟨(c2_filtered_records_produce_no_submissions wDefault [] 0 dNoLevel).1
      (by decide) (by decide),
   (c2_filtered_records_produce_no_submissions wDefault [] 0 dBadLevel).2.1
      "verbose" (by decide) (by decide),
   (c2_filtered_records_produce_no_submissions wDefault [] 0 dInfo).2.2
      ZLevel.info (by decide) (by decide)⟩

/-- C5: on the synthetic chain whose frames, innermost first, are
bridge, bridge, logger, logger, caller, main (framesChain stores them in
sentry order, root first), newStacktrace keeps exactly caller and main:
step 1 leaves the bridge frames of this fork in place because its literal
names the archdx module, but step 2 truncates at the frame before the
logger run, discarding the logger run and everything more recent. -/
theorem c5_stack_trimming_concrete :
    newStacktrace framesChain =
      some [{ module := "main", function := "main" }, { module := "app/pkg", function := "caller" }] := by
  decide

/-- C8 counterexample: the trace level is parseable and can be enabled via
WithLevels, so Write admits a trace record, yet levelsMapping has no entry
for trace: the submitted event carries the zero value of sentry.Level, the
empty string, not a defined external severity. -/
theorem c8_counterexample :
    parseLevel "trace" = some ZLevel.trace ∧ ZLevel.trace ∈ wTrace.levels ∧
      levelsMapping ZLevel.trace = none ∧
      Write wTrace [] 0 dTrace = some (30, [ClientCall.capture evTrace]) ∧
      evTrace.level = "" := by decide

/-- C8 amended: the level mapping is defined, with exactly one external
severity, precisely on the six levels debug, info, warn, error, fatal and
panic; the remaining admissible levels (trace, noLevel, disabled) are
unmapped and fall back to the zero-valued severity. Uniqueness holds because
levelsMapping is a function. -/
theorem c8_levels_mapping_domain :
    ∀ l : ZLevel, (levelsMapping l).isSome = true ↔
      (l = ZLevel.debug ∨ l = ZLevel.info ∨ l = ZLevel.warn ∨ l = ZLevel.error ∨
        l = ZLevel.fatal ∨ l = ZLevel.panic) := by
  intro l
  cases l <;> simp [levelsMapping]

/-- a successful parseLogEvent result is exactly the assembled record. -/
theorem parseLogEvent_some (stack : List Frame) (ts : Nat) (data : LogData)
    (ev : Event) (h : parseLogEvent stack ts data = some ev) :
    ev =
      { level := ""
        message := (parsedState stack data).message
        fingerprint := finalFingerprint data (parsedState stack data).fingerprint
        exceptions := (parsedState stack data).exceptions.map
          (fun e => { e with type := (parsedState stack data).message })
        userId := (parsedState stack data).userId
        extra := (parsedState stack data).extra
        logger := "zerolog"
        timestamp := ts } := by
  unfold parseLogEvent at h
  cases hval : data.valid
  · rw [hval] at h
    simp at h
  · rw [hval] at h
    simp at h
    exact h.symm

/-- the accumulator after the pass is the fingerprint contributions of all
fields in document order. -/
theorem parsedState_fingerprint (stack : List Frame) (data : LogData) :
    (parsedState stack data).fingerprint = data.fields.filterMap fpContrib := by
  unfold parsedState
  rw [foldl_fingerprint]
  simp [initState]

/-- the exceptions after the pass are one mkException per error field, in
document order. -/
theorem parsedState_exceptions (stack : List Frame) (data : LogData) :
    (parsedState stack data).exceptions =
      (data.fields.filterMap errContrib).map (mkException stack) := by
  unfold parsedState
  rw [foldl_exceptions]
  simp [initState]

/-- C3 counterexample: for a record whose message field comes after its two
error fields in document order, the fingerprint is the encounter-order
sequence E1, E2, M, not the message-first sequence M, E1, E2 the claim
asserts. -/
theorem c3_counterexample :
    (parseLogEvent [] 0 dMsgLast).map Event.fingerprint = some ["E1", "E2", "M"] ∧
      (parseLogEvent [] 0 dMsgLast).map Event.fingerprint ≠ some ["M", "E1", "E2"] := by
  decide

/-- C3 amended: when no fingerprint override applies, the fingerprint of the
produced event is the sequence of message and error field values in document
encounter order (so it is M, E1, E2 exactly when the message field precedes
the error fields, not regardless of document order). -/
theorem c3_fingerprint_encounter_order (stack : List Frame) (ts : Nat)
    (data : LogData) (ev : Event) (h : parseLogEvent stack ts data = some ev)
    (hov : fingerprintOverride data = none) :
    ev.fingerprint = data.fields.filterMap fpContrib := by
  rw [parseLogEvent_some stack ts data ev h]
  show finalFingerprint data (parsedState stack data).fingerprint = _
  cases hg : getString data "fingerprint" with
  | none =>
    simp only [finalFingerprint, hg]
    exact parsedState_fingerprint stack data
  | some f =>
    simp only [fingerprintOverride, hg] at hov
    by_cases hf : f ≠ ""
    · rw [if_pos hf] at hov
      exact absurd hov (by simp)
    · simp only [finalFingerprint, hg]
      rw [if_neg hf]
      exact parsedState_fingerprint stack data

/-- C3 witness: the amended theorem applied to the record whose message
comes last; its fingerprint is the encounter-order sequence. -/
theorem c3_witness :
    evMsgLast.fingerprint = dMsgLast.fields.filterMap fpContrib :=
  c3_fingerprint_encounter_order [] 0 dMsgLast evMsgLast (by decide) (by decide)

/-- C4: in every well-formed record, each produced exception carries the
final message value as its Type (the post-pass loop runs after the message
variable is final, so this holds even when an error field precedes the
message field), and there is exactly one exception per error occurrence, in
document order, carrying that error text as its Value. -/
theorem c4_exception_type_is_final_message (stack : List Frame) (ts : Nat)
    (data : LogData) (ev : Event) (h : parseLogEvent stack ts data = some ev) :
    (∀ e ∈ ev.exceptions, e.type = ev.message) ∧
      ev.exceptions.map SException.value = data.fields.filterMap errContrib := by
  rw [parseLogEvent_some stack ts data ev h]
  constructor
  · intro e he
    simp only [List.mem_map] at he
    obtain ⟨e0, _, rfl⟩ := he
    rfl
  · show ((parsedState stack data).exceptions.map _).map SException.value = _
    rw [parsedState_exceptions stack data]
    simp [List.map_map, Function.comp_def, mkException]

/-- C4 witness: the theorem applied to a record whose error field precedes
its message field. -/
theorem c4_witness :
    (∀ e ∈ evErrFirst.exceptions, e.type = evErrFirst.message) ∧
      evErrFirst.exceptions.map SException.value = dErrFirst.fields.filterMap errContrib :=
  c4_exception_type_is_final_message [] 0 dErrFirst evErrFirst (by decide)

/-- C7: a record whose first top-level fingerprint field is a string with a
non-empty value F yields an event whose fingerprint is exactly the
one-element sequence F, replacing whatever the message and error fields
contributed to the accumulator. -/
theorem c7_fingerprint_override (stack : List Frame) (ts : Nat)
    (data : LogData) (F : String) (ev : Event)
    (hg : getString data "fingerprint" = some F) (hF : F ≠ "")
    (h : parseLogEvent stack ts data = some ev) :
    ev.fingerprint = [F] := by
  rw [parseLogEvent_some stack ts data ev h]
  show finalFingerprint data (parsedState stack data).fingerprint = [F]
  simp only [finalFingerprint, hg]
  rw [if_pos hF]

/-- C7 witness: the theorem applied to a record carrying message M and an
explicit fingerprint F. -/
theorem c7_witness : evFp.fingerprint = ["F"] :=
  c7_fingerprint_override [] 0 dFp "F" evFp (by decide) (by decide) (by decide)

/-- C6: in any Write call that submits an event, the flush calls in the
trace are exactly one flush with the configured timeout when the submitted
event has the fatal severity, and none otherwise; Close performs exactly one
flush with the same configured timeout, unconditionally. -/
theorem c6_flush_policy :
    (∀ (w : Writer) (stack : List Frame) (ts : Nat) (data : LogData)
        (n : Nat) (calls : List ClientCall) (ev : Event),
        Write w stack ts data = some (n, calls) →
        ClientCall.capture ev ∈ calls →
        calls.filter isFlush =
          (if ev.level = "fatal" then [ClientCall.flush w.flushTimeout] else [])) ∧
    (∀ w : Writer, Close w = [ClientCall.flush w.flushTimeout]) := by
  refine ⟨fun w stack ts data n calls ev h hmem => ?_, fun w => rfl⟩
  cases hlvl : parseLogLevel data with
  | none =>
    simp only [Write, hlvl, Option.some.injEq, Prod.mk.injEq] at h
    rw [← h.2] at hmem
    simp at hmem
  | some lvl =>
    simp only [Write, hlvl] at h
    by_cases hen : lvl ∈ w.levels
    · rw [if_pos hen] at h
      cases hev : parseLogEvent stack ts data with
      | none => simp [hev] at h
      | some ev0 =>
        simp only [hev, Option.some.injEq, Prod.mk.injEq] at h
        obtain ⟨-, hcalls⟩ := h
        rw [← hcalls] at hmem
        have hev1 : ev = { ev0 with level := levelsMappingGet lvl } := by
          rcases List.mem_append.mp hmem with hm | hm
          · simpa using hm
          · by_cases hc :
              ({ ev0 with level := levelsMappingGet lvl } : Event).level = "fatal"
            · rw [if_pos hc] at hm
              simp at hm
            · rw [if_neg hc] at hm
              simp at hm
        rw [← hcalls, hev1]
        by_cases hc :
            ({ ev0 with level := levelsMappingGet lvl } : Event).level = "fatal"
        · rw [if_pos hc]
          simp [isFlush]
        · rw [if_neg hc]
          simp [isFlush]
    · rw [if_neg hen] at h
      simp only [Option.some.injEq, Prod.mk.injEq] at h
      rw [← h.2] at hmem
      simp at hmem

/-- C6 witness: the first part of the theorem applied to a fatal record
under the default configuration, and Close on the default writer. -/
theorem c6_witness :
    ([ClientCall.capture evFatal, ClientCall.flush 3]).filter isFlush =
        [ClientCall.flush 3] ∧
      Close wDefault = [ClientCall.flush 3] :=
  ⟨c6_flush_policy.1 wDefault [] 7 dFatal 40
      [ClientCall.capture evFatal, ClientCall.flush 3] evFatal (by decide) (by decide),
   c6_flush_policy.2 wDefault⟩

/-- C9: newStacktrace terminates without any out-of-range access on every
captured stack, including the empty and single-frame stacks, and returns a
valid initial segment of the frames. -/
theorem c9_newStacktrace_total (frames : List Frame) :
    ∃ k, k ≤ frames.length ∧ newStacktrace frames = some (frames.take k) := by
  obtain ⟨t1, h1, h1a, h1b⟩ := dropOwnFrames_some frames (frames.length + 1)
    ((frames.length : Int) - 1) (by omega) (by omega) (by omega)
  obtain ⟨t2, h2, h2a, h2b⟩ := scanOuter_some frames (frames.length + 1) t1 t1
    (by omega) (by omega) (by omega) (by omega)
  refine ⟨(t2 + 1).toNat, by omega, ?_⟩
  simp only [newStacktrace, h1, h2]
  rw [if_pos ⟨by omega, by omega⟩]

/-- C10: the first trimming pass of newStacktrace compares modules against
the hard-coded literal github.com/archdx/zerolog-sentry, so every frame it
drops carries that module, and a frame whose module is this repository's
actual path github.com/egordigitax/zerolog-sentry is never dropped by that
pass: its index stays at or below the returned threshold. -/
theorem c10_step_one_drops_only_archdx_frames (frames : List Frame)
    (fuel : Nat) (t t' : Int) (h : dropOwnFrames frames fuel t = some t') :
    (∀ i : Int, t' < i → i ≤ t →
        (getFrame frames i).map Frame.module = some zlsModule) ∧
    (∀ i : Int, i ≤ t →
        (getFrame frames i).map Frame.module = some ownModulePath → i ≤ t') := by
  refine ⟨dropOwnFrames_dropped_module frames fuel t t' h, fun i hit hmod => ?_⟩
  by_contra hc
  have h1 := dropOwnFrames_dropped_module frames fuel t t' h i (by omega) hit
  rw [hmod] at h1
  have h2 : ownModulePath = zlsModule := Option.some.inj h1
  exact absurd h2 (by decide)

/-- C10 witness: the theorem applied to a two-frame stack whose innermost
frame carries the archdx literal and whose root frame carries this
repository's module path; the dropped index 1 holds the archdx frame. -/
theorem c10_witness :
    (getFrame framesOwn 1).map Frame.module = some zlsModule :=
  (c10_step_one_drops_only_archdx_frames framesOwn 3 1 0 (by decide)).1 1
    (by decide) (by decide)

end ZlogSentry
